import Mathlib

/-!
Verification development for the Python-Agents-Assistant repository.

The Python sources are shallowly embedded: Python strings are `List Char`,
dictionaries used as records become structures with `Option` fields,
the agent registry (a Python `dict`) becomes an association list with
`dict`-faithful insert/delete/lookup, raised exceptions become the
`Except Exn` monad (a `try/except Exception` block is a `match` on the
body's `Except` value), and `None` becomes `Option.none`.

Network and third-party-library effects (the Ollama HTTP calls, langchain,
FAISS, docling) are out of scope per the spec and are abstracted as
explicit function parameters describing the outcome of the external call.
-/

set_option autoImplicit false

/-- Python exception value, identified by its `str(e)` rendering. -/
structure Exn where
  msg : List Char
deriving DecidableEq, Repr

/-- Python truthiness-relevant value returned by a `check_status()` call.
`OllamaConnector.check_status` is declared `async def`, so calling it
without `await` (as `BaseAgent.check_status` does) yields a coroutine
object carrying the boolean it would produce if awaited; a synchronous
implementation would yield the boolean itself. -/
inductive StatusVal where
  | coroutine (awaitedValue : Bool)
  | boolVal (b : Bool)
deriving DecidableEq, Repr

/-- Python truthiness of a `StatusVal`: a coroutine object is always truthy. -/
def truthy : StatusVal → Bool
  | .coroutine _ => true
  | .boolVal b => b

/-- Uniform result envelope produced by `Orchestrator.process_task`
(`src/orchestrator.py`): `{"success": ..., "message": ..., "result": ...}`. -/
structure Envelope (ρ : Type) where
  success : Bool
  message : List Char
  result : Option ρ
deriving DecidableEq, Repr

/-- The orchestrator's agent registry `self.agents : Dict[str, BaseAgent]`,
embedded as an insertion-ordered association list (Python dict semantics). -/
abbrev Registry (α : Type) := List (List Char × α)

/-- Membership test `agent_id in self.agents`. -/
def dictContains {α : Type} (s : Registry α) (k : List Char) : Bool :=
  match s with
  | [] => false
  | (k', _) :: rest => if k' = k then true else dictContains rest k

/-- Python dict assignment `d[k] = v`: replaces the value in place when the
key is present (keeping its position), otherwise appends a new entry. -/
def dictSet {α : Type} (s : Registry α) (k : List Char) (v : α) : Registry α :=
  match s with
  | [] => [(k, v)]
  | (k', v') :: rest => if k' = k then (k, v) :: rest else (k', v') :: dictSet rest k v

/-- Python dict deletion `del d[k]`: removes the entry holding key `k`. -/
def dictDel {α : Type} (s : Registry α) (k : List Char) : Registry α :=
  match s with
  | [] => []
  | (k', v') :: rest => if k' = k then rest else (k', v') :: dictDel rest k

/-- Python dict lookup `d[k]` / `d.get(k)`: first (unique) entry with key `k`. -/
def dictGet {α : Type} (s : Registry α) (k : List Char) : Option α :=
  match s with
  | [] => none
  | (k', v') :: rest => if k' = k then some v' else dictGet rest k

/-- Keys of the registry, in insertion order. -/
def dictKeys {α : Type} (s : Registry α) : List (List Char) :=
  match s with
  | [] => []
  | (k, _) :: rest => k :: dictKeys rest

/-- Shallow model of a registered agent as the orchestrator sees it:
its metadata (`self.name` / `self.description`), the outcome of the
synchronous call `agent.check_status()` (which may raise, and whose value
is a Python object subjected to truthiness), and the awaited behaviour of
`agent.process(data)` (which may raise).  Polymorphic in the request type
`δ` and the agent's structured result type `ρ`, mirroring duck typing. -/
structure AgentM (δ : Type) (ρ : Type) where
  name : List Char
  description : List Char
  checkStatus : Except Exn StatusVal
  process : δ → Except Exn ρ

/-- Embedding of `BaseAgent.get_info` (`src/agents/base_agent.py`):
returns the name/description pair. -/
def getInfo {δ : Type} {ρ : Type} (a : AgentM δ ρ) : List Char × List Char :=
  (a.name, a.description)

/-- One element of the list returned by `Orchestrator.get_registered_agents`:
`{"id": agent_id, **agent.get_info()}`. -/
structure Descriptor where
  id : List Char
  name : List Char
  description : List Char
deriving DecidableEq, Repr

/-- Embedding of `Orchestrator.register_agent`: `self.agents[agent_id] = agent`. -/
def registerAgent {α : Type} (s : Registry α) (agentId : List Char) (agent : α) :
    Registry α :=
  dictSet s agentId agent

/-- Embedding of `Orchestrator.unregister_agent`:
`if agent_id in self.agents: del self.agents[agent_id]`. -/
def unregisterAgent {α : Type} (s : Registry α) (agentId : List Char) : Registry α :=
  if dictContains s agentId then dictDel s agentId else s

/-- Embedding of `Orchestrator.get_registered_agents`: the comprehension
`[{"id": agent_id, **agent.get_info()} for agent_id, agent in self.agents.items()]`. -/
def getRegisteredAgents {δ : Type} {ρ : Type} (s : Registry (AgentM δ ρ)) :
    List Descriptor :=
  match s with
  | [] => []
  | (agentId, agent) :: rest =>
    ⟨agentId, (getInfo agent).1, (getInfo agent).2⟩ :: getRegisteredAgents rest

/-- Embedding of the `try`-block body of `Orchestrator.process_task`
(`src/orchestrator.py`, lines 76-94): the liveness test on the value of
`agent.check_status()` (a raised exception propagates as `.error`),
then the dispatch `await agent.process(data)` wrapped on success in the
`success=true` envelope. -/
def processTaskBody {δ : Type} {ρ : Type} (agent : AgentM δ ρ) (agentId : List Char)
    (data : δ) : Except Exn (Envelope ρ) :=
  match agent.checkStatus with
  | .error e => .error e
  | .ok statusVal =>
    if truthy statusVal = false then
      .ok ⟨false, "Agent ".toList ++ agentId ++ " non disponible".toList, none⟩
    else
      match agent.process data with
      | .error e => .error e
      | .ok r => .ok ⟨true, "Tâche traitée par ".toList ++ agentId, some r⟩

/-- Embedding of `Orchestrator.process_task` (`src/orchestrator.py`, lines
57-102).  The guard `agent_id not in self.agents` is rendered as
`dictGet s agentId = none` (equivalent, see `dictGet_eq_none_iff`); the
`try`/`except Exception` block is the `match` on the value of the `try`
body `processTaskBody`: any exception raised there is converted to the
uniform failure envelope, so the whole call returns `Except.ok` of an
envelope. -/
def processTask {δ : Type} {ρ : Type} (s : Registry (AgentM δ ρ))
    (agentId : List Char) (data : δ) : Except Exn (Envelope ρ) :=
  match dictGet s agentId with
  | none =>
    .ok ⟨false, "Agent non trouvé: ".toList ++ agentId, none⟩
  | some agent =>
    match processTaskBody agent agentId data with
    | .ok env => .ok env
    | .error e => .ok ⟨false, "Erreur lors du traitement: ".toList ++ e.msg, none⟩

/-- Sanity: absence from the registry in the sense of `in` coincides with
lookup returning nothing, justifying the guard rendering in `processTask`. -/
theorem dictGet_eq_none_iff {α : Type} (s : Registry α) (k : List Char) :
    dictGet s k = none ↔ dictContains s k = false := by
  induction s with
  | nil => simp [dictGet, dictContains]
  | cons hd tl ih =>
    obtain ⟨k', v'⟩ := hd
    by_cases h : k' = k
    · simp [dictGet, dictContains, h]
    · simp [dictGet, dictContains, h, ih]

/-- Shallow model of `OllamaConnector` (`src/llm/llm_connector.py`): the
network is abstracted to the boolean its `check_status` coroutine would
produce if awaited (model present among Ollama's tags, server reachable). -/
structure OllamaConnectorM where
  modelName : List Char
  awaitedCheckStatus : Bool

/-- The value of the expression `connector.check_status()` when the
connector is an `OllamaConnector`: since `check_status` is `async def`,
the bare call raises nothing and returns a coroutine object (truthy),
not the boolean `awaitedCheckStatus`. -/
def ollamaCheckStatusCall (c : OllamaConnectorM) : Except Exn StatusVal :=
  .ok (.coroutine c.awaitedCheckStatus)

/-- Embedding of `BaseAgent.check_status` (`src/agents/base_agent.py`,
lines 42-49) for an agent bound to an `OllamaConnector`: it returns
`self.llm_connector.check_status()` without awaiting it. -/
def baseAgentCheckStatus (c : OllamaConnectorM) : Except Exn StatusVal :=
  ollamaCheckStatusCall c

/-- JSON value, for the body of the Ollama HTTP response. -/
inductive Json where
  | nullV
  | boolV (b : Bool)
  | strV (s : List Char)
  | numV (n : Int)
  | arrV (xs : List Json)
  | objV (fields : List (List Char × Json))

/-- Key lookup in a JSON object (`"response" in result` / `result["response"]`). -/
def jsonGet (j : Json) (k : List Char) : Option Json :=
  match j with
  | .objV fields => dictGet fields k
  | _ => none

/-- Whitespace in the sense of Python's `str.strip()` and the regex class
`\s` (for the ASCII range, which covers every character these functions
are applied to here). -/
def pyIsSpace (c : Char) : Bool :=
  c = ' ' || c = '\t' || c = '\n' || c = '\r' || c = '\x0b' || c = '\x0c'

/-- Embedding of Python `str.strip()`: removes leading and trailing
whitespace. -/
def stripChars (s : List Char) : List Char :=
  ((s.dropWhile pyIsSpace).reverse.dropWhile pyIsSpace).reverse

/-- Whether `pat` is a prefix of `s`, decided character by character. -/
def listStartsWith (pat s : List Char) : Bool :=
  match pat, s with
  | [], _ => true
  | _ :: _, [] => false
  | p :: ps, c :: cs => p = c && listStartsWith ps cs

/-- First occurrence of `pat` inside `s`: returns the text before the
occurrence and the text after it, or `none` when `pat` does not occur. -/
def splitFirst (pat : List Char) (s : List Char) : Option (List Char × List Char) :=
  if listStartsWith pat s then some ([], s.drop pat.length)
  else
    match s with
    | [] => none
    | c :: cs => (splitFirst pat cs).map (fun p => (c :: p.1, p.2))

/-- Python membership test `"response" in xs` for a decoded JSON list:
`==` comparison with each element, which only a string element equal to
`"response"` can satisfy. -/
def jsonListHasResponse : List Json → Bool
  | [] => false
  | .strV s :: rest => if s = "response".toList then true else jsonListHasResponse rest
  | _ :: rest => jsonListHasResponse rest

/-- Embedding of `OllamaConnector.generate` (`src/llm/llm_connector.py`,
lines 58-113), abstracted over the outcome `netOutcome` of the network
interaction `self.client.post(...)` followed by `response.raise_for_status()`
and `response.json()` (each of which may raise; all three sit inside the
`try` block).  The `except` clause logs and re-raises, so every raised
exception propagates.  The test `"response" in result` follows Python
semantics per decoded type: key membership for an object; a substring test
for a string and element equality for a list, after which the indexing
`result["response"]` raises `TypeError`; for a number, boolean or null the
membership test itself raises `TypeError`.  Only when the membership test
cleanly fails does the function log an error and return the empty string. -/
def ollamaGenerate (netOutcome : Except Exn Json) : Except Exn Json :=
  match netOutcome with
  | .error e => .error e
  | .ok result =>
    match result with
    | .objV fields =>
      match dictGet fields "response".toList with
      | some v => .ok v
      | none => .ok (.strV [])
    | .strV s =>
      if (splitFirst "response".toList s).isSome then
        .error ⟨"string indices must be integers, not \x27str\x27".toList⟩
      else .ok (.strV [])
    | .arrV xs =>
      if jsonListHasResponse xs then
        .error ⟨"list indices must be integers or slices, not str".toList⟩
      else .ok (.strV [])
    | .numV _ => .error ⟨"argument of type \x27int\x27 is not iterable".toList⟩
    | .boolV _ => .error ⟨"argument of type \x27bool\x27 is not iterable".toList⟩
    | .nullV => .error ⟨"argument of type \x27NoneType\x27 is not iterable".toList⟩

/-- The closing code-fence delimiter. -/
def fenceChars : List Char := "```".toList

/-- The opening delimiter of a fenced Python code block. -/
def pyFenceChars : List Char := "```python".toList

/-- Whether the fence delimiter occurs anywhere in `s`. -/
def hasFence (s : List Char) : Bool :=
  match s with
  | [] => false
  | _ :: cs => listStartsWith fenceChars s || hasFence cs

/-- Embedding of `CodeAssistant._parse_llm_response`
(`src/agents/code_assistant.py`, lines 206-234).  The lazy regex
`search` of ```` ```python\s*(.*?)\s*``` ```` with `re.DOTALL` matches at
the first occurrence of ```` ```python ````, with group 1 reaching up to
the first subsequent ```` ``` ```` and shedding surrounding whitespace
(the `\s*` borders); since group 1 is then `strip()`ped anyway, the
improved code is exactly the stripped text strictly between the opening
```` ```python ```` and the first closing ```` ``` ````.  The explanation
is everything after the match end (`match.end()` is just past the closing
fence), stripped; if that is empty, everything before `match.start()`,
stripped.  With no match at all, the whole response is returned as the
code and the explanation is empty. -/
def parseLlmResponse (response : List Char) : List Char × List Char :=
  match splitFirst pyFenceChars response with
  | none => (response, [])
  | some (before, afterOpen) =>
    match splitFirst fenceChars afterOpen with
    | none => (response, [])
    | some (content, afterClose) =>
      let improvedCode := stripChars content
      let explanation := stripChars afterClose
      if explanation = [] then (improvedCode, stripChars before)
      else (improvedCode, explanation)

/-- A string wrapped as a fenced Python code block, the shape the prompt of
`_build_code_prompt` requests from the model and the shape
`_parse_llm_response` extracts from. -/
def fenceWrap (x : List Char) : List Char :=
  pyFenceChars ++ '\n' :: (x ++ '\n' :: fenceChars)

/-- Request mapping consumed by `CodeAssistant.process`: the fields read by
`data.get(...)`, each possibly absent. -/
structure CodeData where
  code : Option (List Char)
  task_type : Option (List Char)
  requirements : Option (List (List Char))
  context : Option (List Char)

/-- Structured result dictionary returned by `CodeAssistant.process`. -/
structure CodeResult where
  improved_code : List Char
  explanation : List Char
  success : Bool
  message : List Char
deriving DecidableEq, Repr

/-- The `task_descriptions` dictionary of `CodeAssistant._build_code_prompt`. -/
def taskDescriptions : Registry (List Char) :=
  [("correction".toList,
    "Corrige les erreurs dans le code tout en préservant sa fonctionnalité originale.".toList),
   ("optimisation".toList,
    "Optimise le code pour améliorer ses performances (vitesse d\x27exécution, utilisation de la mémoire).".toList),
   ("refactoring".toList,
    "Réorganise le code pour améliorer sa lisibilité et sa maintenabilité sans changer son comportement.".toList),
   ("pep8".toList,
    "Modifie le code pour respecter les conventions de style PEP 8 de Python.".toList),
   ("debug".toList,
    "Identifie les problèmes potentiels dans le code et propose des solutions.".toList)]

/-- Lines joined with a newline separator (`"\n".join(...)`). -/
def joinLines : List (List Char) → List Char
  | [] => []
  | [x] => x
  | x :: xs => x ++ '\n' :: joinLines xs

/-- Embedding of `CodeAssistant._build_code_prompt`
(`src/agents/code_assistant.py`, lines 140-180): the f-string template
instantiated with the task description, the code, the requirement bullet
list and the optional context block. -/
def buildCodePrompt (code taskType : List Char) (requirements : List (List Char))
    (context : List Char) : List Char :=
  let taskDesc := (dictGet taskDescriptions taskType).getD "Améliore le code Python fourni.".toList
  let reqStr :=
    if requirements = [] then "Aucune exigence spécifique.".toList
    else joinLines (requirements.map (fun r => "- ".toList ++ r))
  let contextPart :=
    if context = [] then [] else "Contexte d\x27utilisation:\n".toList ++ context
  "En tant qu\x27expert Python, ta tâche est de: ".toList ++ taskDesc ++
  "\n\nCode Python à améliorer:\n```python\n".toList ++ code ++
  "\n```\n\nExigences spécifiques:\n".toList ++ reqStr ++
  "\n\n".toList ++ contextPart ++
  "\n\nInstructions:\n1. Analyse attentivement le code fourni\n2. ".toList ++ taskDesc ++
  "\n3. Fournis le code amélioré\n4. Explique les modifications importantes que tu as apportées\n\nRéponds en fournissant d\x27abord le code amélioré encadré par ```python et ```, puis une explication claire des modifications.\n".toList

/-- Embedding of `CodeAssistant.process` (`src/agents/code_assistant.py`,
lines 28-86), abstracted over the awaited outcome `gen` of
`self.llm_connector.generate(prompt, ...)`.  The body sits in a
`try`/`except` whose handler converts any raised exception into a failure
dictionary, so the function never raises. -/
def codeAssistantProcess (gen : List Char → Except Exn (List Char)) (data : CodeData) :
    Except Exn CodeResult :=
  let body : Except Exn CodeResult :=
    let code := data.code.getD []
    let taskType := data.task_type.getD "correction".toList
    let requirements := data.requirements.getD []
    let context := data.context.getD []
    if code = [] then
      .ok ⟨[], "Aucun code fourni à améliorer.".toList, false, "Erreur: code manquant".toList⟩
    else
      match gen (buildCodePrompt code taskType requirements context) with
      | .error e => .error e
      | .ok result =>
        let parsed := parseLlmResponse result
        .ok ⟨parsed.1, parsed.2, true,
          "Code ".toList ++ taskType ++ " effectué avec succès".toList⟩
  match body with
  | .ok r => .ok r
  | .error e =>
    .ok ⟨[], [], false, "Erreur lors de l\x27amélioration du code: ".toList ++ e.msg⟩

/-- The `CodeAssistant` agent as registered in `src/main.py`
(`CodeAssistant(ollama_connector)`): name and description from its
constructor, liveness via `BaseAgent.check_status` on the Ollama
connector, processing via `codeAssistantProcess`. -/
def codeAgentM (c : OllamaConnectorM) (gen : List Char → Except Exn (List Char)) :
    AgentM CodeData CodeResult :=
  ⟨"CodeAssistant".toList,
   "Agent spécialisé dans l\x27amélioration et le débogage de code Python".toList,
   baseAgentCheckStatus c,
   codeAssistantProcess gen⟩

/-- Request mapping consumed by `RAGAgent.process`
(`src/agents/rag_agent.py`): the fields it reads, each possibly absent. -/
structure RagData where
  operation : Option (List Char)
  file_path : Option (List Char)
  index_path : Option (List Char)
  query : Option (List Char)

/-- The `document_info` sub-dictionary of a `process_document` result. -/
structure DocInfo where
  chunks : Nat
  images : Nat
deriving DecidableEq, Repr

/-- Result dictionaries returned by `RAGAgent`'s operations, one
constructor per distinct dictionary shape in the source: document
processing (`document_info` key), index save/load (no extra key), a
failed query (`answer` key only) and a successful query (`answer` and
`sources` keys). -/
inductive RagResult where
  | processDoc (success : Bool) (message : List Char) (document_info : Option DocInfo)
  | indexOp (success : Bool) (message : List Char)
  | queryErr (success : Bool) (message : List Char) (answer : Option (List Char))
  | queryOk (success : Bool) (message : List Char) (answer : Option (List Char))
      (sources : List (List Char × List Char))
deriving DecidableEq, Repr

/-- Outcomes of the external libraries `RAGAgent` drives, abstracted per
spec §1: docling document conversion/chunking (`docProcess`, returning the
docling result object of type `R` and the text chunks), image extraction
from that result (`getImages`, returning the image count), FAISS index
construction, persistence and retrieval-chain invocation over an index of
type `VS` (`chainInvoke` returns the answer text and the retrieved source
documents as metadata-source/page-content pairs). -/
structure RagEnv (VS R : Type) where
  docProcess : List Char → Except Exn (R × List (List Char))
  getImages : R → Except Exn Nat
  faissFrom : List (List Char) → Except Exn VS
  saveLocal : VS → List Char → Except Exn Unit
  loadLocal : List Char → Except Exn VS
  chainInvoke : VS → List Char → Except Exn (List Char × List (List Char × List Char))

/-- Decimal rendering of a number interpolated into an f-string. -/
def natToChars (n : Nat) : List Char :=
  (toString n).toList

/-- Embedding of `RAGAgent.process_document` (`src/agents/rag_agent.py`,
lines 60-101).  Returns the result dictionary together with the value of
`self.vectorstore` after the call: the assignment
`self.vectorstore = FAISS.from_documents(...)` happens before image
extraction, so a failure in `get_images_from_document` leaves the new
index in place, while earlier failures leave the old value.  One Langchain
`Document` is built per chunk, so `len(documents)` is the chunk count. -/
def ragProcessDocument {VS R : Type} (env : RagEnv VS R) (vs : Option VS)
    (filePath : List Char) : RagResult × Option VS :=
  match env.docProcess filePath with
  | .error e => (.processDoc false ("Error processing document: ".toList ++ e.msg) none, vs)
  | .ok (result, chunks) =>
    match env.faissFrom chunks with
    | .error e => (.processDoc false ("Error processing document: ".toList ++ e.msg) none, vs)
    | .ok store =>
      match env.getImages result with
      | .error e =>
        (.processDoc false ("Error processing document: ".toList ++ e.msg) none, some store)
      | .ok images =>
        (.processDoc true
          ("Document processed successfully: ".toList ++ natToChars chunks.length ++
            " chunks created".toList)
          (some ⟨chunks.length, images⟩), some store)

/-- Embedding of `RAGAgent.save_index` (`src/agents/rag_agent.py`, lines
103-130).  `if not self.vectorstore` is taken as the `None` test: a held
FAISS index object is truthy.  The state is not modified. -/
def ragSaveIndex {VS R : Type} (env : RagEnv VS R) (vs : Option VS)
    (indexPath : List Char) : RagResult :=
  match vs with
  | none => .indexOp false "No index to save. Process a document first.".toList
  | some store =>
    match env.saveLocal store indexPath with
    | .error e => .indexOp false ("Error saving index: ".toList ++ e.msg)
    | .ok _ => .indexOp true ("Index saved successfully to ".toList ++ indexPath)

/-- Embedding of `RAGAgent.load_index` (`src/agents/rag_agent.py`, lines
132-153): on success the loaded index replaces `self.vectorstore`, on
failure the old value stays. -/
def ragLoadIndex {VS R : Type} (env : RagEnv VS R) (vs : Option VS)
    (indexPath : List Char) : RagResult × Option VS :=
  match env.loadLocal indexPath with
  | .error e => (.indexOp false ("Error loading index: ".toList ++ e.msg), vs)
  | .ok store => (.indexOp true ("Index loaded successfully from ".toList ++ indexPath), some store)

/-- Truncation applied to each retrieved chunk's text when assembling the
`sources` list (`src/agents/rag_agent.py`, line 237). -/
def truncateContent (content : List Char) : List Char :=
  if content.length > 200 then content.take 200 ++ "...".toList else content

/-- The query-handling tail of `RAGAgent.process` (`src/agents/rag_agent.py`,
lines 183-245): reject a missing or empty query, then a missing index, then
run the retrieval chain — the one step that can raise out to `process`'s
`except` clause.  `doc.metadata.get("source", "unknown")` always finds the
source key because every indexed chunk is built with one. -/
def ragHandleQuery {VS R : Type} (env : RagEnv VS R) (vs : Option VS)
    (query : Option (List Char)) : Except Exn (RagResult × Option VS) :=
  let qv := query.getD []
  if qv = [] then
    .ok (.queryErr false "No query provided".toList none, vs)
  else
    match vs with
    | none =>
      .ok (.queryErr false "No document has been processed. Process a document first.".toList
        none, vs)
    | some store =>
      match env.chainInvoke store qv with
      | .error e => .error e
      | .ok (answer, sourceDocs) =>
        .ok (.queryOk true "Query processed successfully".toList (some answer)
          (sourceDocs.map (fun p => (p.1, truncateContent p.2))), vs)

/-- Embedding of `RAGAgent.process` (`src/agents/rag_agent.py`, lines
155-253).  The operation dispatch: each `if` requires both the matching
`operation` value and the presence of the path key, otherwise control
falls through; with no branch taken the request is handled as a query.
The outer `try`/`except` converts any raised exception (in this model only
the chain invocation can raise) into the failure dictionary with a `None`
answer.  The second component is the value of `self.vectorstore` after the
call. -/
def ragProcess {VS R : Type} (env : RagEnv VS R) (vs : Option VS) (data : RagData) :
    Except Exn (RagResult × Option VS) :=
  let operation := data.operation.getD "query".toList
  let body : Except Exn (RagResult × Option VS) :=
    if operation = "process".toList ∧ data.file_path ≠ none then
      .ok (ragProcessDocument env vs (data.file_path.getD []))
    else if operation = "save".toList ∧ data.index_path ≠ none then
      .ok (ragSaveIndex env vs (data.index_path.getD []), vs)
    else if operation = "load".toList ∧ data.index_path ≠ none then
      .ok (ragLoadIndex env vs (data.index_path.getD []))
    else
      ragHandleQuery env vs data.query
  match body with
  | .ok r => .ok r
  | .error e => .ok (.queryErr false ("Error processing query: ".toList ++ e.msg) none, vs)

/-- The `RAGAgent` as registered in `src/main.py` under id `"rag"`, viewed
at a single `process_task` call with `self.vectorstore = vs`.  Its
`llm_connector` is the Groq connector (or `None`), whose `check_status()`
call outcome is the abstract parameter `cs`.  The orchestrator observes
only the returned dictionary, so the state component of `ragProcess` is
dropped here; `ragProcess` itself retains it. -/
def ragAgentM {VS R : Type} (env : RagEnv VS R) (cs : Except Exn StatusVal)
    (vs : Option VS) : AgentM RagData RagResult :=
  ⟨"RAGAgent".toList,
   "Agent for document Q&A using Retrieval-Augmented Generation".toList,
   cs,
   fun d => (ragProcess env vs d).map Prod.fst⟩

/-- Setting a key makes it present (Python dict invariant). -/
theorem dictContains_dictSet_self {α : Type} (s : Registry α) (k : List Char) (v : α) :
    dictContains (dictSet s k v) k = true := by
  induction s with
  | nil => simp [dictSet, dictContains]
  | cons hd tl ih =>
    obtain ⟨k', v'⟩ := hd
    by_cases h : k' = k
    · simp [dictSet, dictContains, h]
    · simp [dictSet, dictContains, h, ih]

/-- Deleting a freshly inserted key recovers the original registry, provided
the key was absent before the insertion. -/
theorem dictDel_dictSet {α : Type} (s : Registry α) (k : List Char) (v : α)
    (h : dictContains s k = false) : dictDel (dictSet s k v) k = s := by
  induction s with
  | nil => simp [dictSet, dictDel]
  | cons hd tl ih =>
    obtain ⟨k', v'⟩ := hd
    by_cases hk : k' = k
    · simp [dictContains, hk] at h
    · simp [dictContains, hk] at h
      simp [dictSet, dictDel, hk, ih h]

/-- C3 (amended): registering an agent under an id that is not yet
registered and then immediately unregistering that id restores the registry
to exactly its previous state.  (When the id is already registered the
registration overwrites the old binding, which unregistering cannot
restore; see the counterexample.) -/
theorem registerAgent_unregisterAgent_roundtrip {α : Type} (s : Registry α)
    (agentId : List Char) (agent : α) (h : dictContains s agentId = false) :
    unregisterAgent (registerAgent s agentId agent) agentId = s := by
  simp [unregisterAgent, registerAgent, dictContains_dictSet_self, dictDel_dictSet s agentId agent h]

/-- Witness for the amended C3 at a concrete registry. -/
theorem registerAgent_unregisterAgent_roundtrip_witness :
    dictContains [("a".toList, (1 : Nat))] "b".toList = false ∧
      unregisterAgent (registerAgent [("a".toList, (1 : Nat))] "b".toList 2) "b".toList =
        [("a".toList, (1 : Nat))] :=
  ⟨by decide, registerAgent_unregisterAgent_roundtrip _ _ 2 (by decide)⟩

/-- C3 (counterexample): with the id already registered, the register-then-
unregister round trip does not restore the registry: the old binding is
overwritten by the registration and then deleted. -/
theorem registerAgent_unregisterAgent_counterexample :
    unregisterAgent (registerAgent [("a".toList, (1 : Nat))] "a".toList 2) "a".toList ≠
      [("a".toList, (1 : Nat))] := by
  decide

/-- C4: dispatching to an id absent from the registry yields the
`AgentNotFound` failure envelope — `success=false`, the
`"Agent non trouvé: <id>"` message and a `None` result — whatever the
request data. -/
theorem processTask_agent_not_found {δ ρ : Type} (s : Registry (AgentM δ ρ))
    (agentId : List Char) (data : δ) (h : dictContains s agentId = false) :
    processTask s agentId data =
      .ok ⟨false, "Agent non trouvé: ".toList ++ agentId, none⟩ := by
  have hg : dictGet s agentId = none := (dictGet_eq_none_iff s agentId).mpr h
  simp [processTask, hg]

/-- Witness for C4 at a concrete empty registry and concrete data. -/
theorem processTask_agent_not_found_witness :
    processTask ([] : Registry (AgentM Unit Unit)) "ghost".toList () =
      .ok ⟨false, "Agent non trouvé: ".toList ++ "ghost".toList, none⟩ :=
  processTask_agent_not_found [] "ghost".toList () rfl

/-- C5: `process_task` is total: for every registry, id and request it
returns a result envelope rather than letting an exception escape; and any
exception raised by the agent's status check or by its `process` entry
point is converted into the uniform `{success: false, message}` envelope
carrying the exception text. -/
theorem processTask_total_and_uniform {δ ρ : Type} (s : Registry (AgentM δ ρ))
    (agentId : List Char) (data : δ) :
    (∃ env, processTask s agentId data = .ok env) ∧
    (∀ agent e, dictGet s agentId = some agent →
      (agent.checkStatus = .error e ∨
        (∃ sv, agent.checkStatus = .ok sv ∧ truthy sv = true ∧
          agent.process data = .error e)) →
      processTask s agentId data =
        .ok ⟨false, "Erreur lors du traitement: ".toList ++ e.msg, none⟩) := by
  constructor
  · unfold processTask
    cases dictGet s agentId with
    | none => exact ⟨_, rfl⟩
    | some agent =>
      dsimp only
      cases processTaskBody agent agentId data with
      | error e => exact ⟨_, rfl⟩
      | ok env => exact ⟨_, rfl⟩
  · intro agent e hg hfail
    have hbody : processTaskBody agent agentId data = .error e := by
      rcases hfail with hcs | ⟨sv, hcs, ht, hp⟩
      · simp [processTaskBody, hcs]
      · simp [processTaskBody, hcs, ht, hp]
    simp [processTask, hg, hbody]

/-- Witness for C5 at a concrete registry whose agent raises from
`process`: the exception is converted into the uniform failure envelope. -/
theorem processTask_total_and_uniform_witness :
    processTask
      [("boom".toList,
        (⟨"Boom".toList, [], .ok (.boolVal true),
          fun _ : Unit => .error ⟨"division by zero".toList⟩⟩ : AgentM Unit Unit))]
      "boom".toList () =
      .ok ⟨false, "Erreur lors du traitement: ".toList ++ "division by zero".toList, none⟩ :=
  (processTask_total_and_uniform
      [("boom".toList,
        (⟨"Boom".toList, [], .ok (.boolVal true),
          fun _ : Unit => .error ⟨"division by zero".toList⟩⟩ : AgentM Unit Unit))]
      "boom".toList ()).2
    ⟨"Boom".toList, [], .ok (.boolVal true),
      fun _ : Unit => .error ⟨"division by zero".toList⟩⟩
    ⟨"division by zero".toList⟩ rfl (Or.inr ⟨.boolVal true, rfl, rfl, rfl⟩)

/-- C1 (code-bug evidence): an agent bound to an `OllamaConnector` whose
awaited `check_status` is `false` (server down or model absent) still has
its `process` entry point invoked by `process_task`, which returns a
`success=true` envelope: `BaseAgent.check_status` hands back the unawaited
coroutine object, which is truthy, so the `AgentUnavailable` branch is
unreachable.  The first conjunct exhibits the truthy status value, the
second evaluates the dispatch, whose result envelope carries the value
returned by `process` — proof that `process` ran. -/
theorem processTask_ignores_false_adapter_status :
    (∃ sv, baseAgentCheckStatus ⟨"mistral".toList, false⟩ = .ok sv ∧ truthy sv = true) ∧
    processTask
      [("code".toList,
        (⟨"CodeAssistant".toList, [], baseAgentCheckStatus ⟨"mistral".toList, false⟩,
          fun _ : Unit => .ok (0 : Nat)⟩ : AgentM Unit Nat))]
      "code".toList () =
      .ok ⟨true, "Tâche traitée par ".toList ++ "code".toList, some 0⟩ :=
  ⟨⟨.coroutine false, rfl, rfl⟩, rfl⟩

/-- C2 (counterexample): a network call that succeeds with well-formed JSON
lacking the `"response"` key — a malformed generation response — does not
make `generate` fail: it returns the empty string as a plain success. -/
theorem ollamaGenerate_counterexample :
    ollamaGenerate (.ok (Json.objV [("error".toList, Json.strV "model not loaded".toList)])) =
      .ok (Json.strV []) ∧
    ¬ ∃ e,
      ollamaGenerate (.ok (Json.objV [("error".toList, Json.strV "model not loaded".toList)])) =
        .error e := by
  refine ⟨rfl, ?_⟩
  rintro ⟨e, he⟩
  rw [show ollamaGenerate
      (.ok (Json.objV [("error".toList, Json.strV "model not loaded".toList)])) =
      .ok (Json.strV []) from rfl] at he
  exact Except.noConfusion he

/-- C2 (amended): `generate` propagates a failure to its caller when the
network interaction itself fails (HTTP error, bad status, or an
undecodable body — all raise, and the `except` clause re-raises), and also
when the decoded body is valid JSON on which `"response" in result` or the
subsequent indexing raises a `TypeError` (a number, boolean or null body
always; a string or list body that contains `"response"`).  A decoded
object carrying the `"response"` key yields its value; but when the
membership test cleanly fails — an object lacking the key, or a string or
list not containing `"response"` — `generate` returns the empty string as
a silent success rather than a failure. -/
theorem ollamaGenerate_amended (net : Except Exn Json) :
    (∀ e, net = .error e → ollamaGenerate net = .error e) ∧
    (∀ j v, net = .ok j → jsonGet j "response".toList = some v →
      ollamaGenerate net = .ok v) ∧
    (∀ fields, net = .ok (.objV fields) → dictGet fields "response".toList = none →
      ollamaGenerate net = .ok (Json.strV [])) ∧
    (∀ n, net = .ok (.numV n) → ∃ e, ollamaGenerate net = .error e) ∧
    (∀ b, net = .ok (.boolV b) → ∃ e, ollamaGenerate net = .error e) ∧
    (net = .ok .nullV → ∃ e, ollamaGenerate net = .error e) ∧
    (∀ s, net = .ok (.strV s) → (splitFirst "response".toList s).isSome = true →
      ∃ e, ollamaGenerate net = .error e) ∧
    (∀ s, net = .ok (.strV s) → splitFirst "response".toList s = none →
      ollamaGenerate net = .ok (Json.strV [])) ∧
    (∀ xs, net = .ok (.arrV xs) → jsonListHasResponse xs = true →
      ∃ e, ollamaGenerate net = .error e) ∧
    (∀ xs, net = .ok (.arrV xs) → jsonListHasResponse xs = false →
      ollamaGenerate net = .ok (Json.strV [])) := by
  refine ⟨?_, ?_, ?_, ?_, ?_, ?_, ?_, ?_, ?_, ?_⟩
  · rintro e rfl
    rfl
  · rintro j v rfl hj
    cases j with
    | objV fields =>
      simp only [jsonGet] at hj
      unfold ollamaGenerate
      dsimp only
      rw [hj]
    | nullV => simp [jsonGet] at hj
    | boolV b => simp [jsonGet] at hj
    | strV t => simp [jsonGet] at hj
    | numV n => simp [jsonGet] at hj
    | arrV xs => simp [jsonGet] at hj
  · rintro fields rfl hf
    unfold ollamaGenerate
    dsimp only
    rw [hf]
  · rintro n rfl
    exact ⟨_, rfl⟩
  · rintro b rfl
    exact ⟨_, rfl⟩
  · rintro rfl
    exact ⟨_, rfl⟩
  · rintro t rfl hsub
    refine ⟨⟨"string indices must be integers, not \x27str\x27".toList⟩, ?_⟩
    unfold ollamaGenerate
    dsimp only
    rw [hsub]
    rfl
  · rintro t rfl hnone
    unfold ollamaGenerate
    dsimp only
    rw [hnone]
    rfl
  · rintro xs rfl hmem
    refine ⟨⟨"list indices must be integers or slices, not str".toList⟩, ?_⟩
    unfold ollamaGenerate
    dsimp only
    rw [hmem]
    rfl
  · rintro xs rfl hmem
    unfold ollamaGenerate
    dsimp only
    rw [hmem]
    rfl

/-- Witness for the amended C2: a concrete network failure propagates. -/
theorem ollamaGenerate_amended_witness :
    ollamaGenerate (.error ⟨"Connection refused".toList⟩) =
      .error ⟨"Connection refused".toList⟩ :=
  (ollamaGenerate_amended (.error ⟨"Connection refused".toList⟩)).1 _ rfl

/-- C6: dispatching `{code: "", task_type: "correction"}` to the registered
code assistant (with the adapter's awaited status true) yields the outer
`success=true` envelope whose inner result is the agent-level rejection
`success=false` / `"Erreur: code manquant"`: the empty input is rejected by
`CodeAssistant.process`, not by the orchestrator. -/
theorem processTask_empty_code_scenario (c : OllamaConnectorM)
    (gen : List Char → Except Exn (List Char)) (s : Registry (AgentM CodeData CodeResult))
    (_hstatus : c.awaitedCheckStatus = true)
    (hs : dictGet s "code".toList = some (codeAgentM c gen)) :
    processTask s "code".toList ⟨some [], some "correction".toList, none, none⟩ =
      .ok ⟨true, "Tâche traitée par ".toList ++ "code".toList,
        some ⟨[], "Aucun code fourni à améliorer.".toList, false,
          "Erreur: code manquant".toList⟩⟩ := by
  unfold processTask
  rw [hs]
  simp [processTaskBody, codeAgentM, baseAgentCheckStatus,
    ollamaCheckStatusCall, truthy, codeAssistantProcess]

/-- Witness for C6 at a fully concrete orchestrator state. -/
theorem processTask_empty_code_scenario_witness :
    processTask [("code".toList, codeAgentM ⟨"mistral".toList, true⟩ (fun _ => .ok []))]
      "code".toList ⟨some [], some "correction".toList, none, none⟩ =
      .ok ⟨true, "Tâche traitée par ".toList ++ "code".toList,
        some ⟨[], "Aucun code fourni à améliorer.".toList, false,
          "Erreur: code manquant".toList⟩⟩ :=
  processTask_empty_code_scenario ⟨"mistral".toList, true⟩ (fun _ => .ok []) _ rfl rfl

/-- Descriptors of agents whose id is not registered do not occur. -/
theorem filter_getRegisteredAgents_not_mem {δ ρ : Type} (s : Registry (AgentM δ ρ))
    (agentId : List Char) (h : agentId ∉ dictKeys s) :
    (getRegisteredAgents s).filter (fun d => d.id = agentId) = [] := by
  induction s with
  | nil => rfl
  | cons hd tl ih =>
    obtain ⟨k, a⟩ := hd
    have h1 : ¬ (k = agentId) := by
      intro he
      exact h (by simp [dictKeys, he])
    have h2 : agentId ∉ dictKeys tl := by
      intro hm
      apply h
      simp [dictKeys] at hm ⊢
      exact Or.inr hm
    simp [getRegisteredAgents, List.filter_cons, h1] at ih ⊢
    exact ih h2

/-- C9: for every registered id, `get_registered_agents()` contains exactly
one descriptor with that id, and it is the id together with the name and
description reported by the agent's `get_info()`.  The `Nodup` hypothesis
is the Python dict invariant on the registry's keys. -/
theorem getRegisteredAgents_exactly_one {δ ρ : Type} (s : Registry (AgentM δ ρ))
    (agentId : List Char) (a : AgentM δ ρ)
    (hnd : (dictKeys s).Nodup) (hget : dictGet s agentId = some a) :
    (getRegisteredAgents s).filter (fun d => d.id = agentId) =
      [⟨agentId, (getInfo a).1, (getInfo a).2⟩] := by
  induction s with
  | nil => simp [dictGet] at hget
  | cons hd tl ih =>
    obtain ⟨k, b⟩ := hd
    have hnd' : (dictKeys tl).Nodup ∧ k ∉ dictKeys tl := by
      have := hnd
      simp [dictKeys] at this
      exact ⟨this.2, by simpa [dictKeys] using this.1⟩
    by_cases hk : k = agentId
    · subst hk
      have hb : b = a := by
        simpa [dictGet] using hget
      subst hb
      simp [getRegisteredAgents, List.filter_cons, getInfo,
        filter_getRegisteredAgents_not_mem tl k hnd'.2]
    · have hget' : dictGet tl agentId = some a := by
        simpa [dictGet, hk] using hget
      simp [getRegisteredAgents, List.filter_cons, hk] at ih ⊢
      exact ih hnd'.1 hget'

/-- Witness for C9 at a concrete one-agent registry. -/
theorem getRegisteredAgents_exactly_one_witness :
    (getRegisteredAgents
        [("code".toList,
          (⟨"CodeAssistant".toList, "desc".toList, .ok (.boolVal true),
            fun _ : Unit => .ok (0 : Nat)⟩ : AgentM Unit Nat))]).filter
        (fun d => d.id = "code".toList) =
      [⟨"code".toList, "CodeAssistant".toList, "desc".toList⟩] :=
  getRegisteredAgents_exactly_one
    [("code".toList,
      (⟨"CodeAssistant".toList, "desc".toList, .ok (.boolVal true),
        fun _ : Unit => .ok (0 : Nat)⟩ : AgentM Unit Nat))]
    "code".toList
    ⟨"CodeAssistant".toList, "desc".toList, .ok (.boolVal true),
      fun _ : Unit => .ok (0 : Nat)⟩
    (by simp [dictKeys]) rfl

/-- C7: a query dispatched to the registered RAG agent before any document
has been processed (no index held) produces the outer `success=true`
envelope whose inner result is the reported `NoIndexLoaded` failure:
`success=false` with a `None` answer — a failure value, not a raised
error. -/
theorem processTask_rag_no_index {VS R : Type} (env : RagEnv VS R)
    (cs : Except Exn StatusVal) (sv : StatusVal)
    (s : Registry (AgentM RagData RagResult))
    (hcs : cs = .ok sv) (ht : truthy sv = true)
    (hs : dictGet s "rag".toList = some (ragAgentM env cs none)) :
    processTask s "rag".toList ⟨none, none, none, some "X".toList⟩ =
      .ok ⟨true, "Tâche traitée par ".toList ++ "rag".toList,
        some (.queryErr false
          "No document has been processed. Process a document first.".toList none)⟩ := by
  subst hcs
  have h1 : ¬ ("query".toList = "process".toList) := by decide
  have h2 : ¬ ("query".toList = "save".toList) := by decide
  have h3 : ¬ ("query".toList = "load".toList) := by decide
  have h4 : ¬ ("X".toList = ([] : List Char)) := by decide
  unfold processTask
  rw [hs]
  simp [processTaskBody, ragAgentM, ht, ragProcess, ragHandleQuery, h1, h2, h3, h4,
    Except.map]

/-- A concrete trivial environment of external-library outcomes, used to
instantiate witnesses: document processing and the retrieval chain fail,
index persistence succeeds vacuously. -/
def unitRagEnv : RagEnv Unit Unit :=
  ⟨fun _ => .error ⟨"docling unavailable".toList⟩,
   fun _ => .ok 0,
   fun _ => .ok (),
   fun _ _ => .ok (),
   fun _ => .ok (),
   fun _ _ => .error ⟨"no llm".toList⟩⟩

/-- Witness for C7 at a fully concrete orchestrator state. -/
theorem processTask_rag_no_index_witness :
    processTask [("rag".toList, ragAgentM unitRagEnv (.ok (.coroutine false)) none)]
      "rag".toList ⟨none, none, none, some "X".toList⟩ =
      .ok ⟨true, "Tâche traitée par ".toList ++ "rag".toList,
        some (.queryErr false
          "No document has been processed. Process a document first.".toList none)⟩ :=
  processTask_rag_no_index unitRagEnv (.ok (.coroutine false)) (.coroutine false) _ rfl rfl rfl

/-- C10: a request to the RAG agent with operation `"process"` but no
`file_path` key (or operation `"save"`/`"load"` but no `index_path` key)
is not reported as a missing-field error: every dispatch guard fails, the
request falls through to query handling, and the outcome coincides with
that of a pure query request carrying the same `query` field against the
same index state. -/
theorem ragProcess_missing_path_is_query {VS R : Type} (env : RagEnv VS R)
    (vs : Option VS) (data : RagData)
    (h : (data.operation = some "process".toList ∧ data.file_path = none) ∨
        ((data.operation = some "save".toList ∨ data.operation = some "load".toList) ∧
          data.index_path = none)) :
    ragProcess env vs data = ragProcess env vs ⟨none, none, none, data.query⟩ := by
  have hqp : ¬ ("query".toList = "process".toList) := by decide
  have hqs : ¬ ("query".toList = "save".toList) := by decide
  have hql : ¬ ("query".toList = "load".toList) := by decide
  have hps : ¬ ("process".toList = "save".toList) := by decide
  have hpl : ¬ ("process".toList = "load".toList) := by decide
  have hsp : ¬ ("save".toList = "process".toList) := by decide
  have hsl : ¬ ("save".toList = "load".toList) := by decide
  have hlp : ¬ ("load".toList = "process".toList) := by decide
  have hls : ¬ ("load".toList = "save".toList) := by decide
  rcases h with ⟨hop, hfp⟩ | ⟨hop | hop, hip⟩
  · simp [ragProcess, hop, hfp, hps, hpl, hqp, hqs, hql]
  · simp [ragProcess, hop, hip, hsp, hsl, hqp, hqs, hql]
  · simp [ragProcess, hop, hip, hlp, hls, hqp, hqs, hql]

/-- Witness for C10: a concrete `"process"` request without `file_path` is
answered exactly like the corresponding plain query. -/
theorem ragProcess_missing_path_is_query_witness :
    ragProcess unitRagEnv none ⟨some "process".toList, none, none, some "X".toList⟩ =
      ragProcess unitRagEnv none ⟨none, none, none, some "X".toList⟩ :=
  ragProcess_missing_path_is_query unitRagEnv none _ (Or.inl ⟨rfl, rfl⟩)

/-- A pattern is a prefix of itself extended by anything. -/
theorem listStartsWith_append_self (l r : List Char) :
    listStartsWith l (l ++ r) = true := by
  induction l with
  | nil => rfl
  | cons p ps ih => simp [listStartsWith, ih]

/-- Unfolding of `splitFirst` on a non-empty string. -/
theorem splitFirst_cons (pat : List Char) (c : Char) (cs : List Char) :
    splitFirst pat (c :: cs) =
      if listStartsWith pat (c :: cs) then some ([], (c :: cs).drop pat.length)
      else (splitFirst pat cs).map (fun p => (c :: p.1, p.2)) := by
  rw [splitFirst.eq_def]

/-- A search for `pat` in a string beginning with `pat` matches immediately. -/
theorem splitFirst_self_append (pat t : List Char) :
    splitFirst pat (pat ++ t) = some ([], t) := by
  cases pat with
  | nil =>
    rw [List.nil_append, splitFirst.eq_def]
    cases t with
    | nil => rfl
    | cons c cs => simp [listStartsWith]
  | cons p ps =>
    have h := listStartsWith_append_self (p :: ps) t
    rw [List.cons_append] at h ⊢
    rw [splitFirst_cons, h]
    simp [List.drop_succ_cons, List.drop_left]

/-- Auxiliary boolean identity used to discharge a two-character remainder. -/
theorem and_and_false (a b : Bool) : (a && (b && false)) = false := by
  cases a <;> cases b <;> rfl

/-- A fence-free string followed by a newline never begins with the fence
delimiter: any fence prefix would have to sit inside the string or span the
newline, and the newline breaks the run of backticks.  The first three
cases hold because the newline sits within the first three characters, the
last because the first three characters all come from the fence-free
string. -/
theorem listStartsWith_fence_append (s t : List Char) (h : hasFence s = false) :
    listStartsWith fenceChars (s ++ '\n' :: t) = false := by
  rcases s with _ | ⟨c, _ | ⟨d, _ | ⟨e, s'⟩⟩⟩
  · rfl
  · exact Bool.and_false _
  · exact and_and_false _ _
  · have h1 : listStartsWith fenceChars (c :: d :: e :: s') = false := by
      cases hw : listStartsWith fenceChars (c :: d :: e :: s') with
      | false => rfl
      | true =>
        rw [hasFence, hw] at h
        simp at h
    exact h1

/-- Searching for the closing fence in `x ++ "\n" ++ fence` with `x`
fence-free finds exactly the final fence, leaving `x ++ "\n"` before it and
nothing after it. -/
theorem splitFirst_fence_sentinel (x : List Char) (h : hasFence x = false) :
    splitFirst fenceChars (x ++ '\n' :: fenceChars) = some (x ++ ['\n'], []) := by
  induction x with
  | nil => rfl
  | cons c x' ih =>
    have hx' : hasFence x' = false := by
      cases hw : hasFence x' with
      | false => rfl
      | true =>
        rw [hasFence] at h
        simp [hw] at h
    have hsw : listStartsWith fenceChars ((c :: x') ++ '\n' :: fenceChars) = false :=
      listStartsWith_fence_append (c :: x') fenceChars h
    rw [List.cons_append] at hsw
    rw [List.cons_append, splitFirst_cons, hsw]
    simp [ih hx']

/-- A string fixed by `strip()` loses nothing to a leading or trailing
whitespace scan. -/
theorem stripChars_fixed_parts (x : List Char) (hst : stripChars x = x) :
    x.dropWhile pyIsSpace = x ∧ x.reverse.dropWhile pyIsSpace = x.reverse := by
  have key : x.dropWhile pyIsSpace = x := by
    have hsuf : x.dropWhile pyIsSpace <:+ x := List.dropWhile_suffix pyIsSpace
    apply hsuf.eq_of_length
    have h1 : (x.dropWhile pyIsSpace).length ≤ x.length := hsuf.length_le
    have h2 : ((x.dropWhile pyIsSpace).reverse.dropWhile pyIsSpace).length ≤
        (x.dropWhile pyIsSpace).length := by
      have := (List.dropWhile_suffix (l := (x.dropWhile pyIsSpace).reverse) pyIsSpace).length_le
      simpa using this
    have h3 : ((x.dropWhile pyIsSpace).reverse.dropWhile pyIsSpace).length = x.length := by
      have := congrArg List.length hst
      simpa [stripChars] using this
    omega
  refine ⟨key, ?_⟩
  have : (x.reverse.dropWhile pyIsSpace).reverse = x := by
    rw [stripChars, key] at hst
    exact hst
  calc x.reverse.dropWhile pyIsSpace
      = ((x.reverse.dropWhile pyIsSpace).reverse).reverse := (List.reverse_reverse _).symm
    _ = x.reverse := by rw [this]

/-- A predicate-false head survives `dropWhile`; conversely a `dropWhile`
fixed point has a predicate-false head. -/
theorem pyIsSpace_head_false (c : Char) (cs : List Char)
    (h : List.dropWhile pyIsSpace (c :: cs) = c :: cs) : pyIsSpace c = false := by
  by_cases hc : pyIsSpace c = true
  · rw [List.dropWhile_cons_of_pos hc] at h
    have hle := (List.dropWhile_suffix (l := cs) pyIsSpace).length_le
    rw [h] at hle
    simp at hle
  · simpa using hc

/-- Stripping the newline-framed fenced body recovers the strip-fixed
payload. -/
theorem stripChars_wrap (x : List Char) (hd : x.dropWhile pyIsSpace = x)
    (hr : x.reverse.dropWhile pyIsSpace = x.reverse) :
    stripChars ('\n' :: (x ++ ['\n'])) = x := by
  cases x with
  | nil => rfl
  | cons c x' =>
    have hc : pyIsSpace c = false := pyIsSpace_head_false c x' hd
    unfold stripChars
    rw [List.dropWhile_cons_of_pos (by rfl : pyIsSpace '\n' = true)]
    rw [List.cons_append, List.dropWhile_cons_of_neg (by simp [hc])]
    rw [← List.cons_append, List.reverse_append]
    simp only [List.reverse_cons, List.reverse_nil, List.nil_append, List.singleton_append]
    rw [List.dropWhile_cons_of_pos (by rfl : pyIsSpace '\n' = true)]
    rw [List.reverse_cons] at hr
    rw [hr, ← List.reverse_cons, List.reverse_reverse]

/-- C8 (amended): for every string that the parse routine's fenced-block
branch can produce as the primary field — that is, every whitespace-stripped
string containing no ```` ``` ```` delimiter — parsing it re-fenced as a
Python code block returns it unchanged as the improved-code field, with an
empty explanation.  (Primary fields produced by the no-block fallback
branch may contain stray fences or surrounding whitespace and need not
round-trip; see the counterexample.) -/
theorem parseLlmResponse_fenceWrap (x : List Char) (hnf : hasFence x = false)
    (hst : stripChars x = x) :
    parseLlmResponse (fenceWrap x) = (x, []) := by
  obtain ⟨hd, hr⟩ := stripChars_fixed_parts x hst
  have h1 : splitFirst pyFenceChars (fenceWrap x) =
      some ([], '\n' :: (x ++ '\n' :: fenceChars)) := by
    unfold fenceWrap
    exact splitFirst_self_append pyFenceChars ('\n' :: (x ++ '\n' :: fenceChars))
  have hsw : listStartsWith fenceChars ('\n' :: (x ++ '\n' :: fenceChars)) = false := rfl
  have h2 : splitFirst fenceChars ('\n' :: (x ++ '\n' :: fenceChars)) =
      some ('\n' :: (x ++ ['\n']), []) := by
    rw [splitFirst_cons, hsw]
    simp [splitFirst_fence_sentinel x hnf]
  unfold parseLlmResponse
  rw [h1]
  dsimp only
  rw [h2]
  dsimp only
  rw [stripChars_wrap x hd hr]
  rfl

/-- Witness for the amended C8 on a concrete stripped, fence-free payload. -/
theorem parseLlmResponse_fenceWrap_witness :
    parseLlmResponse (fenceWrap "print(1)".toList) = ("print(1)".toList, []) :=
  parseLlmResponse_fenceWrap "print(1)".toList (by decide) (by decide)

/-- C8 (counterexample): the string `"a ``` b"` is a primary field the
parse routine itself produces (through its no-block fallback), yet
re-fencing it and parsing again yields `"a"`, not the original: the stray
delimiter inside the payload truncates the lazy fence match. -/
theorem parseLlmResponse_counterexample :
    (parseLlmResponse "a ``` b".toList).1 = "a ``` b".toList ∧
    (parseLlmResponse (fenceWrap ((parseLlmResponse "a ``` b".toList).1))).1 ≠
      (parseLlmResponse "a ``` b".toList).1 := by
  constructor
  · rfl
  · decide
